import Mathlib

/-!
Shallow embedding of the ASX mining announcement scanner
(`asx_scanner.py`): the ingestion, deduplication, classification and
report-building pipeline of class `ASXMiningScanner`.

Python dicts used as records are embedded as structures with `Option String`
fields (`dict.get(k, default)` becomes `Option.getD`/pattern matching, so a
present-but-empty string is distinguished from an absent key).  Python's
insertion-ordered dicts are embedded as association lists built in insertion
order, and Python's stable `sorted` as `List.mergeSort` (which is stable).
-/

/-- A tracked mining company: one entry of the literal table in
`load_mining_companies` (fields `code`, `name`, `sector`). -/
structure Company where
  code : String
  name : String
  sector : String
deriving Repr, DecidableEq

/-- A raw scraped announcement record (a Python dict with best-effort string
fields); `none` models an absent key. -/
structure RawRecord where
  company_code : Option String := none
  company_name : Option String := none
  title : Option String := none
  content : Option String := none
  date : Option String := none
  time : Option String := none
  url : Option String := none
deriving Repr, DecidableEq

/-- The canonical classified announcement: dataclass `Announcement`. -/
structure Announcement where
  company_name : String
  company_code : String
  title : String
  content : String
  date : String
  time : String
  url : String
  sentiment : String := "neutral"
  key_points : List String := []
deriving Repr, DecidableEq, Inhabited

/-- The static company table embedded in `load_mining_companies`
(lines 64-137 of `asx_scanner.py`). -/
def static_mining_companies : List Company :=
  [⟨"BHP", "BHP Group Limited", "Diversified Metals"⟩,
   ⟨"RIO", "Rio Tinto Limited", "Diversified Metals"⟩,
   ⟨"FMG", "Fortescue Metals Group Ltd", "Iron Ore"⟩,
   ⟨"NCM", "Newcrest Mining Limited", "Gold"⟩,
   ⟨"EVN", "Evolution Mining Limited", "Gold"⟩,
   ⟨"NST", "Northern Star Resources Ltd", "Gold"⟩,
   ⟨"MIN", "Mineral Resources Limited", "Diversified Metals"⟩,
   ⟨"IGO", "IGO Limited", "Nickel/Lithium"⟩,
   ⟨"SBM", "St Barbara Limited", "Gold"⟩,
   ⟨"RSG", "Resolute Mining Limited", "Gold"⟩,
   ⟨"RRL", "Regis Resources Limited", "Gold"⟩,
   ⟨"SAR", "Saracen Mineral Holdings Limited", "Gold"⟩,
   ⟨"GOR", "Gold Road Resources Limited", "Gold"⟩,
   ⟨"DCN", "Dacian Gold Limited", "Gold"⟩,
   ⟨"KLA", "Kirkland Lake Gold Ltd", "Gold"⟩,
   ⟨"LRV", "Larvotto Resources Limited", "Gold"⟩,
   ⟨"TMR", "Tempus Resources Ltd", "Gold"⟩,
   ⟨"NVA", "Nova Minerals Limited", "Gold"⟩,
   ⟨"PLS", "Pilbara Minerals Limited", "Lithium"⟩,
   ⟨"ORE", "Orocobre Limited", "Lithium"⟩,
   ⟨"GXY", "Galaxy Resources Limited", "Lithium"⟩,
   ⟨"CXO", "Core Lithium Ltd", "Lithium"⟩,
   ⟨"LPD", "Lepidico Ltd", "Lithium"⟩,
   ⟨"ARI", "Argosy Minerals Limited", "Lithium"⟩,
   ⟨"ASN", "Anson Resources Limited", "Lithium"⟩,
   ⟨"LTR", "Liontown Resources Limited", "Lithium"⟩,
   ⟨"BOE", "Boss Energy Limited", "Uranium"⟩,
   ⟨"PEN", "Peninsula Energy Limited", "Uranium"⟩,
   ⟨"BMN", "Bannerman Energy Ltd", "Uranium"⟩,
   ⟨"DYL", "Deep Yellow Limited", "Uranium"⟩,
   ⟨"LOT", "Lotus Resources Limited", "Uranium"⟩,
   ⟨"AZS", "Azure Minerals Limited", "Copper"⟩,
   ⟨"C6C", "Copper Mountain Mining Corporation", "Copper"⟩,
   ⟨"29M", "29Metals Limited", "Copper"⟩,
   ⟨"SFR", "Sandfire Resources Limited", "Copper"⟩,
   ⟨"GRR", "Grange Resources Limited", "Iron Ore"⟩,
   ⟨"AGO", "Atlas Iron Limited", "Iron Ore"⟩,
   ⟨"BCI", "BC Iron Limited", "Iron Ore"⟩,
   ⟨"FRI", "Fortescue Future Industries", "Iron Ore"⟩,
   ⟨"MLS", "Metals X Limited", "Tin"⟩,
   ⟨"VMG", "VanMag Limited", "Vanadium"⟩,
   ⟨"FYI", "FYI Resources Limited", "Alumina"⟩,
   ⟨"SYR", "Syrah Resources Limited", "Graphite"⟩,
   ⟨"TNG", "TNG Limited", "Titanium"⟩,
   ⟨"LYC", "Lynas Rare Earths Ltd", "Rare Earths"⟩,
   ⟨"ARU", "Arafura Resources Limited", "Rare Earths"⟩,
   ⟨"IXR", "Ionic Rare Earths Limited", "Rare Earths"⟩,
   ⟨"WHC", "Whitehaven Coal Limited", "Coal"⟩,
   ⟨"NHC", "New Hope Corporation Limited", "Coal"⟩,
   ⟨"WDS", "Woodside Energy Group Ltd", "Energy"⟩,
   ⟨"STO", "Santos Limited", "Energy"⟩,
   ⟨"ORG", "Origin Energy Limited", "Energy"⟩,
   ⟨"EXR", "Elixir Energy Limited", "Gas"⟩]

/-- `load_mining_companies`: the static table, extended at the end by the
optional supplemental entries from `mining_companies.json`
(`companies.extend(additional_companies)`). -/
def load_mining_companies (additional_companies : List Company) : List Company :=
  static_mining_companies ++ additional_companies

/-- The topical keyword list of `load_config_from_env`
(`config["scanning"]["keywords"]`). -/
def scanning_keywords : List String :=
  ["drilling", "resource", "reserve", "production", "exploration",
   "acquisition", "merger", "feasibility", "offtake", "partnership",
   "upgrade", "expansion", "mine", "operation", "project", "development"]

/-- `config["scanning"]["min_announcement_length"]`. -/
def min_announcement_length : Nat := 30

/-- Contiguous-subsequence test on character lists: the needle is a prefix
of some suffix of the haystack. -/
def charsContain (needle : List Char) : List Char → Bool
  | [] => needle.isEmpty
  | c :: cs => needle.isPrefixOf (c :: cs) || charsContain needle cs

/-- Python's substring test `needle in hay` on strings. -/
def strContains (hay needle : String) : Bool :=
  charsContain needle.data hay.data

/-- Python's `str.lower()`: lower-case every character (identical to
`String.toLower`, stated over the character list so that it evaluates by
kernel reduction). -/
def strLower (s : String) : String :=
  ⟨s.data.map Char.toLower⟩

/-- The deduplication key of `get_asx_announcements` (line 170):
`f"{ann.get('company_code', '')}-{ann.get('title', '')}"` — the company code
and title joined by a literal dash, with absent fields read as `""`. -/
def dedupKey (r : RawRecord) : String :=
  r.company_code.getD "" ++ "-" ++ r.title.getD ""

/-- The dedup loop of `get_asx_announcements` (lines 167-173): walk the
records in order, keep a record whose key is unseen and add its key to
`seen`, silently drop a record whose key was already seen. -/
def dedupeGo (seen : List String) : List RawRecord → List RawRecord
  | [] => []
  | r :: rs =>
    let key := dedupKey r
    if key ∈ seen then dedupeGo seen rs
    else r :: dedupeGo (key :: seen) rs

/-- `get_asx_announcements`' duplicate removal applied to the concatenated
scrape results (starting from an empty `seen` set). -/
def dedupe (records : List RawRecord) : List RawRecord :=
  dedupeGo [] records

/-- `get_company_info` (lines 251-256): scan the company list front to back
and return the first entry whose `code` matches, else `None`. -/
def get_company_info (mining_companies : List Company) (company_code : String) :
    Option Company :=
  mining_companies.find? (fun company => company.code == company_code)

/-- `is_mining_company` (lines 247-249). -/
def is_mining_company (mining_companies : List Company) (company_code : String) : Bool :=
  mining_companies.any (fun company => company.code == company_code)

/-- The fixed positive word list of `analyze_announcement` (lines 264-268). -/
def positive_keywords : List String :=
  ["increase", "growth", "strong", "successful", "positive", "upgrade",
   "expansion", "discovery", "high-grade", "significant", "excellent",
   "breakthrough", "achievement", "record", "boost", "progress"]

/-- The fixed negative word list of `analyze_announcement` (lines 269-273). -/
def negative_keywords : List String :=
  ["decrease", "decline", "loss", "suspension", "delay", "downgrade",
   "closure", "reduction", "cut", "lower", "disappointing", "concern",
   "issue", "problem", "halt", "stop"]

/-- `analyze_announcement` (lines 258-302), parameterised by the configured
topical keyword list (`self.config['scanning']['keywords']`).
`announcement.get('title', '')` is `r.title.getD ""`;
`announcement.get('content', title)` falls back to the title only when the
`content` KEY is absent (`none`), exactly as Python's `dict.get` default. -/
def analyze_announcement (keywords : List String) (r : RawRecord) : Announcement :=
  let title := r.title.getD ""
  let content := r.content.getD title
  let title_lower := strLower title
  let positive_score := positive_keywords.countP (fun k => strContains title_lower k)
  let negative_score := negative_keywords.countP (fun k => strContains title_lower k)
  let sentiment :=
    if negative_score < positive_score then "positive"
    else if positive_score < negative_score then "negative"
    else "neutral"
  let key_points :=
    (keywords.filter (fun k => strContains title_lower (strLower k))).map
      (fun k => "Related to " ++ k)
  { company_name := r.company_name.getD ""
    company_code := r.company_code.getD ""
    title := title
    content := content
    date := r.date.getD ""
    time := r.time.getD ""
    url := r.url.getD ""
    sentiment := sentiment
    key_points := key_points }

/-- The filter loop of `run_daily_scan` (lines 490-498): classify every raw
record, then keep the classified announcements whose title length is at
least the configured minimum. -/
def analyzed_announcements (keywords : List String) (minLen : Nat)
    (raw_announcements : List RawRecord) : List Announcement :=
  (raw_announcements.map (analyze_announcement keywords)).filter
    (fun a => minLen ≤ a.title.length)

/-- Sector resolution in the sector-breakdown loop of `generate_daily_report`
(lines 426-427): the company's sector, or `"Other"` for an untracked code. -/
def announcementSector (mining_companies : List Company) (a : Announcement) : String :=
  match get_company_info mining_companies a.company_code with
  | some company => company.sector
  | none => "Other"

/-- One `sectors[sector] += 1` step on the insertion-ordered Python dict,
embedded as an association list in insertion order. -/
def bumpSector (sectors : List (String × Nat)) (sector : String) : List (String × Nat) :=
  if sectors.any (fun p => p.1 == sector) then
    sectors.map (fun p => if p.1 == sector then (p.1, p.2 + 1) else p)
  else sectors ++ [(sector, 1)]

/-- The sector tally dict of `generate_daily_report` (lines 424-430), keyed
in first-encounter order. -/
def sectorTally (mining_companies : List Company) (announcements : List Announcement) :
    List (String × Nat) :=
  announcements.foldl
    (fun sectors a => bumpSector sectors (announcementSector mining_companies a)) []

/-- The comparison used by `sorted(sectors.items(), key=lambda x: x[1],
reverse=True)`: descending by count; Python's sort is stable. -/
def sectorDescLE (p q : String × Nat) : Bool :=
  decide (q.2 ≤ p.2)

/-- The sorted sector list rendered by lines 432-433 (stable sort, descending
by announcement count). -/
def sectorSummary (mining_companies : List Company) (announcements : List Announcement) :
    List (String × Nat) :=
  (sectorTally mining_companies announcements).mergeSort sectorDescLE

/-- The rendered sector summary lines (line 433). -/
def sectorSummaryLines (mining_companies : List Company)
    (announcements : List Announcement) : List String :=
  (sectorSummary mining_companies announcements).map
    (fun p => "- " ++ p.1 ++ ": " ++ toString p.2 ++ " announcement(s)\n")

/-- One step of the company-grouping dict build of `generate_daily_report`
(lines 405-409), insertion-ordered. -/
def addToCompanyGroup (groups : List (String × List Announcement)) (a : Announcement) :
    List (String × List Announcement) :=
  if groups.any (fun p => p.1 == a.company_code) then
    groups.map (fun p => if p.1 == a.company_code then (p.1, p.2 ++ [a]) else p)
  else groups ++ [(a.company_code, [a])]

/-- The `companies` dict of `generate_daily_report` (lines 405-409). -/
def companyGroups (announcements : List Announcement) :
    List (String × List Announcement) :=
  announcements.foldl addToCompanyGroup []

/-- The comparison of `sorted(companies.items())`: ascending by company code
(the dict keys are distinct, so the tuple comparison never reaches the
values). -/
def codeAscLE (p q : String × List Announcement) : Bool :=
  decide (p.1 ≤ q.1)

/-- One line of the company breakdown (lines 413-416).  The source reads
`company_announcements[0]` for the name fallback; the group lists built by
`companyGroups` are never empty, embedded with `headD default`. -/
def companyBreakdownLine (mining_companies : List Company) (company_code : String)
    (company_announcements : List Announcement) : String :=
  let company_info := get_company_info mining_companies company_code
  let company_name :=
    match company_info with
    | some c => c.name
    | none => (company_announcements.headD default).company_name
  let sector :=
    match company_info with
    | some c => c.sector
    | none => "Mining"
  "**" ++ company_name ++ " (" ++ company_code ++ ")** - " ++ sector ++ ": " ++
    toString company_announcements.length ++ " announcement(s)\n"

/-- The company breakdown lines of `generate_daily_report` (lines 411-416). -/
def companyBreakdownLines (mining_companies : List Company)
    (announcements : List Announcement) : List String :=
  ((companyGroups announcements).mergeSort codeAscLE).map
    (fun p => companyBreakdownLine mining_companies p.1 p.2)

/-- The empty-input branch of `generate_daily_report` (lines 354-366), with
the two `datetime.now()` renderings passed in as `dateStr`/`tsStr`. -/
def emptyReport (num_companies : Nat) (dateStr tsStr : String) : String :=
  "\n# ASX Mining Daily Report - " ++ dateStr ++
  "\n\n## Summary\nNo significant mining announcements found for today.\n\nThe scanner checked " ++
  toString num_companies ++
  " mining companies but found no new announcements meeting the criteria.\n\n---\n*Report generated at " ++
  tsStr ++ " UTC*\n*Monitoring " ++ toString num_companies ++
  " ASX mining companies*\n"

/-- One sentiment section of the report (lines 384-402): emitted only when
the group is non-empty; one summariser line plus `"\n"` per announcement,
then a trailing `"\n"`. -/
def sentimentSection (summarize : Announcement → String) (header : String)
    (group : List Announcement) : String :=
  if group.isEmpty then ""
  else header ++ String.join (group.map (fun a => summarize a ++ "\n")) ++ "\n"

/-- `generate_daily_report` (lines 352-443).  The cosmetic per-announcement
formatter `format_announcement_summary` (a best-effort regex formatter whose
output no property here depends on) is passed in as the `summarize`
parameter; `datetime.now()` strings are the `dateStr`/`tsStr` parameters. -/
def generate_daily_report (summarize : Announcement → String)
    (mining_companies : List Company) (dateStr tsStr : String)
    (announcements : List Announcement) : String :=
  if announcements.isEmpty then
    emptyReport mining_companies.length dateStr tsStr
  else
    let positive_announcements := announcements.filter (fun a => a.sentiment == "positive")
    let neutral_announcements := announcements.filter (fun a => a.sentiment == "neutral")
    let negative_announcements := announcements.filter (fun a => a.sentiment == "negative")
    "\n# ASX Mining Daily Report - " ++ dateStr ++
    "\n\n## Summary\nFound " ++ toString announcements.length ++
    " significant announcements from mining companies today.\n\n## Key Announcements\n\n" ++
    sentimentSection summarize "### ðŸ“ˆ Positive Developments\n"
      positive_announcements ++
    sentimentSection summarize "### ðŸ“Š General Updates\n"
      neutral_announcements ++
    sentimentSection summarize "### ðŸ“‰ Challenges/Concerns\n"
      negative_announcements ++
    "## Company Breakdown\n" ++
    String.join (companyBreakdownLines mining_companies announcements) ++
    "\n\n## Sector Summary\n" ++
    String.join (sectorSummaryLines mining_companies announcements) ++
    "\n\n---\n*Report generated at " ++ tsStr ++ " UTC*\n*Monitoring " ++
    toString mining_companies.length ++
    " ASX mining companies*\n*Next report: Tomorrow at 8:00 AM AEST*\n"

/-- Modelled from the amended deduplication specification: keep the first
record of every joined key `companyCode ++ "-" ++ title`; a later record is
dropped exactly when its joined key equals that of an earlier record. -/
def dedupeFirstByKey : List RawRecord → List RawRecord
  | [] => []
  | r :: rs =>
    r :: dedupeFirstByKey (rs.filter (fun s => dedupKey s != dedupKey r))
termination_by l => l.length
decreasing_by
  simp only [List.length_cons]
  exact Nat.lt_succ_of_le (List.length_filter_le _ _)

/-- The sentiment rule exactly as the specification words it (spec-side
definition for the refinement comparison): lower-case the title, count the
POSITIVE words occurring as substrings, count the NEGATIVE words occurring
as substrings, and compare the counts, with every tie (including zero/zero)
resolving to neutral. -/
def spec_sentiment_rule (title : String) : String :=
  let title_lower := strLower title
  let pos := positive_keywords.countP (fun k => strContains title_lower k)
  let neg := negative_keywords.countP (fun k => strContains title_lower k)
  if neg < pos then "positive"
  else if pos < neg then "negative"
  else "neutral"

/-- The key-point rule exactly as the specification words it (spec-side
definition for the refinement comparison): for each configured keyword, in
configured order, emit `"Related to " ++ keyword` when its lower-cased form
occurs as a substring of the lower-cased title; no deduplication. -/
def spec_key_points_rule (keywords : List String) (title : String) : List String :=
  (keywords.filter (fun k => strContains (strLower title) (strLower k))).map
    (fun k => "Related to " ++ k)

/-- A minimal announcement carrying only a company code, used as concrete
input for the report-builder properties. -/
def sampleAnn (code : String) : Announcement :=
  { company_name := "", company_code := code, title := "", content := "",
    date := "", time := "", url := "" }

theorem dedupeGo_eq_dedupeFirstByKey (seen : List String) (xs : List RawRecord) :
    dedupeGo seen xs =
      dedupeFirstByKey (xs.filter (fun r => decide (dedupKey r ∉ seen))) := by
  induction xs generalizing seen with
  | nil => simp [dedupeGo, dedupeFirstByKey]
  | cons r rs ih =>
    by_cases h : dedupKey r ∈ seen
    · simp [dedupeGo, List.filter_cons, h, ih]
    · have hgo : dedupeGo seen (r :: rs) = r :: dedupeGo (dedupKey r :: seen) rs := by
        simp [dedupeGo, h]
      have hfl : List.filter (fun x => decide (dedupKey x ∉ seen)) (r :: rs) =
          r :: List.filter (fun x => decide (dedupKey x ∉ seen)) rs := by
        simp [List.filter_cons, h]
      rw [hgo, hfl, ih (dedupKey r :: seen), dedupeFirstByKey]
      congr 1
      rw [List.filter_filter]
      congr 1
      apply List.filter_congr
      intro s _
      rcases Decidable.em (dedupKey s = dedupKey r) with he | he <;>
        rcases Decidable.em (dedupKey s ∈ seen) with hm | hm <;>
          simp [he, hm, List.mem_cons]

theorem dedupe_eq_dedupeFirstByKey (xs : List RawRecord) :
    dedupe xs = dedupeFirstByKey xs := by
  rw [dedupe, dedupeGo_eq_dedupeFirstByKey]
  congr 1
  exact List.filter_eq_self.mpr (fun a _ => by simp)

theorem mem_of_mem_dedupeFirstByKey {s : RawRecord} :
    ∀ {l : List RawRecord}, s ∈ dedupeFirstByKey l → s ∈ l
  | [], h => by simp [dedupeFirstByKey] at h
  | r :: rs, h => by
    rw [dedupeFirstByKey] at h
    rcases List.mem_cons.mp h with h | h
    · exact h ▸ List.mem_cons_self r rs
    · exact List.mem_cons_of_mem r
        (List.mem_of_mem_filter (mem_of_mem_dedupeFirstByKey h))
termination_by l => l.length
decreasing_by
  simp only [List.length_cons]
  exact Nat.lt_succ_of_le (List.length_filter_le _ _)

theorem dedupeFirstByKey_idem :
    ∀ (l : List RawRecord), dedupeFirstByKey (dedupeFirstByKey l) = dedupeFirstByKey l
  | [] => by simp [dedupeFirstByKey]
  | r :: rs => by
    rw [dedupeFirstByKey, dedupeFirstByKey]
    congr 1
    have hfix : List.filter (fun s => dedupKey s != dedupKey r)
        (dedupeFirstByKey (rs.filter (fun s => dedupKey s != dedupKey r))) =
        dedupeFirstByKey (rs.filter (fun s => dedupKey s != dedupKey r)) := by
      refine List.filter_eq_self.mpr (fun s hs => ?_)
      have hs' : s ∈ rs.filter (fun t => dedupKey t != dedupKey r) :=
        mem_of_mem_dedupeFirstByKey hs
      have hp := List.of_mem_filter hs'
      exact hp
    rw [hfix]
    exact dedupeFirstByKey_idem (rs.filter (fun s => dedupKey s != dedupKey r))
termination_by l => l.length
decreasing_by
  simp only [List.length_cons]
  exact Nat.lt_succ_of_le (List.length_filter_le _ _)

/-- C1 (counterexample): the dedup key is the dash-joined string, not the
`(companyCode, title)` pair — the records `("A-B", "C")` and `("A", "B-C")`
have different field pairs yet the second is merged away. -/
theorem dedupe_distinct_pairs_merged :
    (({ company_code := some "A-B", title := some "C" } : RawRecord).company_code,
      ({ company_code := some "A-B", title := some "C" } : RawRecord).title) ≠
      (({ company_code := some "A", title := some "B-C" } : RawRecord).company_code,
        ({ company_code := some "A", title := some "B-C" } : RawRecord).title) ∧
    dedupe [{ company_code := some "A-B", title := some "C" },
        { company_code := some "A", title := some "B-C" }] =
      [{ company_code := some "A-B", title := some "C" }] := by
  exact ⟨by decide, by decide⟩

/-- C1 (amended): the deduplication step treats two records as duplicates
exactly when their dash-joined keys `companyCode ++ "-" ++ title` (absent
fields read as `""`) are equal: of any set of records sharing an identical
joined key, exactly one survives — the first in input order — and records
whose joined keys differ are never merged.  Stated as refinement against
the spec-side `dedupeFirstByKey`. -/
theorem dedupe_first_by_joined_key (xs : List RawRecord) :
    dedupe xs = dedupeFirstByKey xs :=
  dedupe_eq_dedupeFirstByKey xs

/-- C6: deduplication is idempotent: `dedupe (dedupe xs) = dedupe xs` for
every input sequence `xs`. -/
theorem dedupe_idempotent (xs : List RawRecord) :
    dedupe (dedupe xs) = dedupe xs := by
  rw [dedupe_eq_dedupeFirstByKey xs, dedupe_eq_dedupeFirstByKey,
    dedupeFirstByKey_idem]

/-- C2 (counterexample): with a supplemental entry for code `"BHP"` merged
after the static table, company lookup returns the static (first-loaded)
entry, not the supplemental (last-loaded) one. -/
theorem get_company_info_not_last_write :
    get_company_info (load_mining_companies [⟨"BHP", "Supplemental BHP", "Test"⟩]) "BHP" =
      some ⟨"BHP", "BHP Group Limited", "Diversified Metals"⟩ ∧
    (⟨"BHP", "BHP Group Limited", "Diversified Metals"⟩ : Company) ≠
      ⟨"BHP", "Supplemental BHP", "Test"⟩ := by
  exact ⟨by decide, by decide⟩

/-- C2 (amended): when the company list contains several entries with the
same code, lookup by that code returns the FIRST-loaded entry
(first-write-wins): `get_company_info` is the head of the sublist of
entries carrying that code. -/
theorem get_company_info_first_write_wins (mining_companies : List Company)
    (company_code : String) :
    get_company_info mining_companies company_code =
      (mining_companies.filter (fun c => c.code == company_code)).head? :=
  (List.filter_head? _ _).symm

/-- C3 (counterexample): for a record whose `content` field is present but
empty, the classified announcement keeps the empty content instead of
defaulting to the title. -/
theorem analyze_content_empty_not_title :
    ({ title := some "Annual general meeting notice", content := some "" } :
        RawRecord).content = some "" ∧
    (analyze_announcement scanning_keywords
        { title := some "Annual general meeting notice", content := some "" }).content =
      "" ∧
    ("" : String) ≠ "Annual general meeting notice" := by
  exact ⟨rfl, rfl, by decide⟩

/-- C3 (amended): the announcement's `content` defaults to the title exactly
when the raw record's `content` KEY is absent; a present value — the empty
string included — is kept verbatim. -/
theorem analyze_content_default_on_absent_only (keywords : List String) (r : RawRecord) :
    (r.content = none →
      (analyze_announcement keywords r).content = r.title.getD "") ∧
    (∀ c, r.content = some c → (analyze_announcement keywords r).content = c) := by
  constructor
  · intro h
    simp [analyze_announcement, h]
  · intro c h
    simp [analyze_announcement, h]

/-- Witness for C3 (amended) at two concrete records: an absent content key
defaults to the title, a present content value is kept. -/
theorem analyze_content_default_on_absent_only_witness :
    (analyze_announcement scanning_keywords
        { title := some "Quarterly activities report" }).content =
      "Quarterly activities report" ∧
    (analyze_announcement scanning_keywords
        { title := some "Quarterly activities report",
          content := some "Full body" }).content = "Full body" :=
  ⟨(analyze_content_default_on_absent_only scanning_keywords
      { title := some "Quarterly activities report" }).1 rfl,
   (analyze_content_default_on_absent_only scanning_keywords
      { title := some "Quarterly activities report",
        content := some "Full body" }).2 "Full body" rfl⟩

/-- C4: the classifier's sentiment is exactly the spec's counting rule —
count positive and negative keyword substrings of the lower-cased title,
strict majority decides, every tie (0/0 included) is neutral — together
with concrete classifications exercising all three outcomes and the
equal-nonzero tie. -/
theorem analyze_sentiment_spec_rule :
    (∀ (keywords : List String) (r : RawRecord),
      (analyze_announcement keywords r).sentiment =
        spec_sentiment_rule (r.title.getD "")) ∧
    (analyze_announcement scanning_keywords
      { title := some "Company reports record high-grade gold discovery" }).sentiment =
      "positive" ∧
    (analyze_announcement scanning_keywords
      { title := some "Company announces mine closure and production halt" }).sentiment =
      "negative" ∧
    (analyze_announcement scanning_keywords
      { title := some "Exploration and production update" }).sentiment = "neutral" ∧
    (analyze_announcement scanning_keywords
      { title := some "Strong growth despite delay and production cut" }).sentiment =
      "neutral" := by
  refine ⟨fun keywords r => rfl, by decide, by decide, by decide, by decide⟩

/-- C5: the quality gate of `run_daily_scan` keeps a classified announcement
exactly when its title length reaches the configured minimum (default 30),
and it is applied after classification to every record: membership in the
filtered output is equivalent to being the classification of some input
record with title length ≥ 30.  A 10-character title is excluded, a
30-character title is included. -/
theorem run_scan_min_length_gate :
    (∀ (raws : List RawRecord) (a : Announcement),
      a ∈ analyzed_announcements scanning_keywords min_announcement_length raws ↔
        ∃ r ∈ raws, a = analyze_announcement scanning_keywords r ∧
          min_announcement_length ≤ a.title.length) ∧
    analyze_announcement scanning_keywords { title := some "Short note" } ∉
      analyzed_announcements scanning_keywords min_announcement_length
        [{ title := some "Short note" }] ∧
    analyze_announcement scanning_keywords
        { title := some "Drilling results at Kalgoorlie" } ∈
      analyzed_announcements scanning_keywords min_announcement_length
        [{ title := some "Drilling results at Kalgoorlie" }] := by
  refine ⟨fun raws a => ?_, by decide, by decide⟩
  simp only [analyzed_announcements, List.mem_filter, List.mem_map]
  constructor
  · rintro ⟨⟨r, hr, rfl⟩, hlen⟩
    exact ⟨r, hr, rfl, by simpa using hlen⟩
  · rintro ⟨r, hr, rfl, hlen⟩
    exact ⟨⟨r, hr, rfl⟩, by simpa using hlen⟩

/-- C7: the key points of a classified announcement are exactly
`"Related to " ++ keyword` for each configured keyword whose lower-cased
form is a substring of the lower-cased title, in configured order, without
deduplication of the derived strings — shown by the refinement against the
spec-side rule and by concrete inputs (including a duplicated keyword). -/
theorem analyze_key_points_spec_rule :
    (∀ (keywords : List String) (r : RawRecord),
      (analyze_announcement keywords r).key_points =
        spec_key_points_rule keywords (r.title.getD "")) ∧
    (analyze_announcement scanning_keywords
      { title := some "Exploration and production update" }).key_points =
      ["Related to production", "Related to exploration"] ∧
    (analyze_announcement ["mine", "mine"]
      { title := some "New mine opening" }).key_points =
      ["Related to mine", "Related to mine"] := by
  refine ⟨fun keywords r => rfl, by decide, by decide⟩

theorem sectorDescLE_trans (a b c : String × Nat) :
    sectorDescLE a b → sectorDescLE b c → sectorDescLE a c := by
  simp only [sectorDescLE, decide_eq_true_eq]
  omega

theorem sectorDescLE_total (a b : String × Nat) :
    sectorDescLE a b || sectorDescLE b a := by
  simp only [sectorDescLE, Bool.or_eq_true, decide_eq_true_eq]
  omega

theorem sectorSummary_filter_eq (mining_companies : List Company)
    (announcements : List Announcement) (n : Nat) :
    (sectorSummary mining_companies announcements).filter (fun p => p.2 == n) =
      (sectorTally mining_companies announcements).filter (fun p => p.2 == n) := by
  have hall : ∀ q ∈ (sectorTally mining_companies announcements).filter
      (fun p => p.2 == n), (fun p : String × Nat => p.2 == n) q = true := by
    intro q hq
    have h := List.of_mem_filter hq
    exact h
  have hpair : ((sectorTally mining_companies announcements).filter
      (fun p => p.2 == n)).Pairwise (fun a b => sectorDescLE a b = true) := by
    apply List.pairwise_of_forall_mem_list
    intro a ha b hb
    have ha' : a.2 = n := by simpa using List.of_mem_filter ha
    have hb' : b.2 = n := by simpa using List.of_mem_filter hb
    simp [sectorDescLE, ha', hb']
  have hsub : List.Sublist
      ((sectorTally mining_companies announcements).filter (fun p => p.2 == n))
      ((sectorTally mining_companies announcements).mergeSort sectorDescLE) :=
    List.sublist_mergeSort sectorDescLE_trans sectorDescLE_total hpair
      (List.filter_sublist _)
  have hsub' : List.Sublist
      ((sectorTally mining_companies announcements).filter (fun p => p.2 == n))
      (((sectorTally mining_companies announcements).mergeSort sectorDescLE).filter
        (fun p => p.2 == n)) := by
    have h1 := hsub.filter (fun p : String × Nat => p.2 == n)
    rwa [List.filter_eq_self.mpr hall] at h1
  have hlen : (((sectorTally mining_companies announcements).mergeSort
      sectorDescLE).filter (fun p => p.2 == n)).length =
      ((sectorTally mining_companies announcements).filter
        (fun p => p.2 == n)).length :=
    ((List.mergeSort_perm (sectorTally mining_companies announcements)
      sectorDescLE).filter _).length_eq
  rw [sectorSummary]
  exact (hsub'.eq_of_length hlen.symm).symm

/-- C8: in the rendered sector summary, sectors appear in weakly descending
order of announcement count; ties keep the order of the first-encounter
tally (stability: restricting the sorted summary to any fixed count `n`
gives exactly the tally's entries of count `n`, in tally order); and for
announcements whose sectors are Gold, Gold, Lithium the summary is Gold
with count 2 before Lithium with count 1. -/
theorem sector_summary_sorted_desc_stable :
    (∀ (mining_companies : List Company) (announcements : List Announcement),
      (sectorSummary mining_companies announcements).Pairwise
        (fun p q => q.2 ≤ p.2)) ∧
    (∀ (mining_companies : List Company) (announcements : List Announcement) (n : Nat),
      (sectorSummary mining_companies announcements).filter (fun p => p.2 == n) =
        (sectorTally mining_companies announcements).filter (fun p => p.2 == n)) ∧
    sectorSummary static_mining_companies
        [sampleAnn "EVN", sampleAnn "NST", sampleAnn "PLS"] =
      [("Gold", 2), ("Lithium", 1)] := by
  refine ⟨fun cs anns => ?_, sectorSummary_filter_eq, ?_⟩
  · have h := List.sorted_mergeSort sectorDescLE_trans sectorDescLE_total
      (sectorTally cs anns)
    exact h.imp (fun hab => by simpa [sectorDescLE] using hab)
  · have htally : sectorTally static_mining_companies
        [sampleAnn "EVN", sampleAnn "NST", sampleAnn "PLS"] =
        [("Gold", 2), ("Lithium", 1)] := by decide
    rw [sectorSummary, htally]
    refine List.mergeSort_of_sorted ?_
    decide

set_option maxRecDepth 100000 in
/-- C9: building a report from the empty announcement sequence takes the
"no announcements" terminal branch: for every summariser, company list and
timestamps the result is exactly `emptyReport`, and on the default company
table that report contains the no-announcements phrase and the monitored
company count, and none of the three per-sentiment section headers. -/
theorem empty_report_branch :
    (∀ (summarize : Announcement → String) (mining_companies : List Company)
        (dateStr tsStr : String),
      generate_daily_report summarize mining_companies dateStr tsStr [] =
        emptyReport mining_companies.length dateStr tsStr) ∧
    strContains
        (generate_daily_report (fun _ => "") static_mining_companies
          "October 12, 2026" "2026-10-12 08:00:00" [])
        "No significant mining announcements found for today." = true ∧
    strContains
        (generate_daily_report (fun _ => "") static_mining_companies
          "October 12, 2026" "2026-10-12 08:00:00" [])
        "The scanner checked 53 mining companies" = true ∧
    strContains
        (generate_daily_report (fun _ => "") static_mining_companies
          "October 12, 2026" "2026-10-12 08:00:00" [])
        "Monitoring 53 ASX mining companies" = true ∧
    strContains
        (generate_daily_report (fun _ => "") static_mining_companies
          "October 12, 2026" "2026-10-12 08:00:00" [])
        "Positive Developments" = false ∧
    strContains
        (generate_daily_report (fun _ => "") static_mining_companies
          "October 12, 2026" "2026-10-12 08:00:00" [])
        "General Updates" = false ∧
    strContains
        (generate_daily_report (fun _ => "") static_mining_companies
          "October 12, 2026" "2026-10-12 08:00:00" [])
        "Challenges/Concerns" = false := by
  refine ⟨fun summarize cs d t => rfl, by decide, by decide, by decide,
    by decide, by decide, by decide⟩

/-- C10: an announcement whose company code is untracked is rendered with
two different fallback sector labels in the same report: its company
breakdown line carries the sector `"Mining"`, while the sector summary
tallies it under `"Other"`. -/
theorem untracked_company_fallback_mismatch (mining_companies : List Company)
    (a : Announcement)
    (h : get_company_info mining_companies a.company_code = none) :
    companyBreakdownLine mining_companies a.company_code [a] =
      "**" ++ a.company_name ++ " (" ++ a.company_code ++ ")** - " ++ "Mining" ++
        ": " ++ toString (1 : Nat) ++ " announcement(s)\n" ∧
    announcementSector mining_companies a = "Other" ∧
    sectorTally mining_companies [a] = [("Other", 1)] ∧
    ("Mining" : String) ≠ "Other" := by
  refine ⟨?_, ?_, ?_, by decide⟩
  · simp [companyBreakdownLine, h]
  · simp [announcementSector, h]
  · simp [sectorTally, bumpSector, announcementSector, h]

/-- Witness for C10 at the untracked code `"ZZZ"` against the default
company table. -/
theorem untracked_company_fallback_mismatch_witness :
    companyBreakdownLine static_mining_companies (sampleAnn "ZZZ").company_code
        [sampleAnn "ZZZ"] =
      "**" ++ (sampleAnn "ZZZ").company_name ++ " (" ++
        (sampleAnn "ZZZ").company_code ++ ")** - " ++ "Mining" ++ ": " ++
        toString (1 : Nat) ++ " announcement(s)\n" ∧
    announcementSector static_mining_companies (sampleAnn "ZZZ") = "Other" ∧
    sectorTally static_mining_companies [sampleAnn "ZZZ"] = [("Other", 1)] ∧
    ("Mining" : String) ≠ "Other" :=
  untracked_company_fallback_mismatch static_mining_companies (sampleAnn "ZZZ")
    (by decide)
